import Mathlib

/-!
Shallow embedding of the staking-pool contract in `src/staking/src/lib.rs`
(module `staking_pool_contract`).

Modelling conventions:
* `u128` / `u64` values are `Nat` with explicit bounds checks; ink! contracts
  are built with overflow checks enabled, so wrapping arithmetic panics.  A
  panic aborts the whole message call and reverts every state change, so a
  panicking execution is modelled as `none` (no new state).
* `AccountId` is `Nat`.
* The `BTreeMap<AccountId, u128>` of balances is an association list with
  unique keys; `entry(k).and_modify(f).or_insert(v)` is mirrored by
  `entryAdd` / `entrySub`.
* The external PSP22 token contract is an oracle: the observations the
  gateway makes (sender balance, allowance, receiver balance before/after,
  success of the cross-contract call) are collected in `TransferEnv`, and
  the outcome of the single external transfer performed by a public
  operation is the parameter `tr : TransferFromResult`.
* Each public operation also records the transfer-from requests it issues
  (`TransferCall`), so that the direction and the amount of each external
  transfer are part of the model.
-/

/-- Size of the `u128` value space. -/
def U128 : ℕ := 2 ^ 128

/-- Checked `u128` addition: `a + b`, panicking (`none`) on overflow. -/
def cadd (a b : ℕ) : Option ℕ :=
  if a + b < U128 then some (a + b) else none

/-- Checked subtraction (`u128` or `u64`): `a - b`, panicking on underflow. -/
def csub (a b : ℕ) : Option ℕ :=
  if b ≤ a then some (a - b) else none

/-- Checked `u128` multiplication: `a * b`, panicking on overflow. -/
def cmul (a b : ℕ) : Option ℕ :=
  if a * b < U128 then some (a * b) else none

/-- Division: `a / b`, panicking on division by zero (Rust `/` on integers). -/
def cdiv (a b : ℕ) : Option ℕ :=
  if b = 0 then none else some (a / b)

/-- Error kinds of the contract (`enum Error`). -/
inductive Error where
  | NotAdmin
  | AmountShouldBeGreaterThanZero
  | InsufficientFunds
  | NotEnoughAllowance
  | TokenTransferFailed
  | Overflow
  | StakingStillInProgress
deriving DecidableEq, Repr

/-- Result of the gateway `transfer_from` (Rust `Result<(), Error>`). -/
inductive TransferFromResult where
  | ok : TransferFromResult
  | err : Error → TransferFromResult
deriving DecidableEq, Repr

/-- The `StakingContract` storage struct. -/
structure StakingContract where
  balances : List (ℕ × ℕ)
  staked_token : ℕ
  reward_token : ℕ
  total_staked : ℕ
  staking_deadline : ℕ
  rewards : List ℕ
  reward_per_token : ℕ
  last_update : ℕ
deriving DecidableEq, Repr

/-- Lookup in the balances map (`BTreeMap::get`). -/
def mapGet (m : List (ℕ × ℕ)) (k : ℕ) : Option ℕ :=
  match m with
  | [] => none
  | (k', v) :: rest => if k' = k then some v else mapGet rest k

/-- Mirror of `balances.entry(account).and_modify(|b| *b += amount).or_insert(amount)`
with checked addition: panics (`none`) if the balance would overflow. -/
def entryAdd (m : List (ℕ × ℕ)) (k amount : ℕ) : Option (List (ℕ × ℕ)) :=
  match m with
  | [] => some [(k, amount)]
  | (k', v) :: rest =>
    if k' = k then
      match cadd v amount with
      | some v' => some ((k', v') :: rest)
      | none => none
    else
      match entryAdd rest k amount with
      | some rest' => some ((k', v) :: rest')
      | none => none

/-- Mirror of `balances.entry(account).and_modify(|b| *b -= amount)` followed by
the `.expect(..)`: panics if the key is absent or the subtraction underflows. -/
def entrySub (m : List (ℕ × ℕ)) (k amount : ℕ) : Option (List (ℕ × ℕ)) :=
  match m with
  | [] => none
  | (k', v) :: rest =>
    if k' = k then
      match csub v amount with
      | some v' => some ((k', v') :: rest)
      | none => none
    else
      match entrySub rest k amount with
      | some rest' => some ((k', v) :: rest')
      | none => none

/-- Sum of all values stored in the balances map. -/
def sumVals (m : List (ℕ × ℕ)) : ℕ := (m.map Prod.snd).sum

/-- The public read `get_reward_per_token` (lines 152-169): returns the stored
accumulator when `total_staked == 0`; otherwise halves the last reward
snapshot, divides by `remaining_days` when nonzero, and adds the scaled
contribution.  The subtraction `staking_deadline - now` is the unguarded `u64`
subtraction of the source, so a time past the deadline panics. -/
def get_reward_per_token (s : StakingContract) (now : ℕ) : Option ℕ :=
  if s.total_staked = 0 then some s.reward_per_token
  else
    match csub s.staking_deadline now with
    | none => none
    | some diff =>
      let reward := s.rewards.getLast?.getD 0
      let remaining_days := diff / (24 * 60 * 60)
      let new_reward := reward / 2
      if remaining_days = 0 then
        match cmul new_reward 10000 with
        | none => none
        | some p =>
          match cdiv p s.total_staked with
          | none => none
          | some q => cadd s.reward_per_token q
      else
        let reward_per_day := new_reward / remaining_days
        match cmul reward_per_day 10000 with
        | none => none
        | some p =>
          match cdiv p s.total_staked with
          | none => none
          | some q => cadd s.reward_per_token q

/-- The public read `get_total_staked` (lines 172-174). -/
def get_total_staked (s : StakingContract) : ℕ := s.total_staked

/-- The public read `get_staking_deadline` (lines 177-179). -/
def get_staking_deadline (s : StakingContract) : ℕ := s.staking_deadline

/-- `OnStake::on_stake` (lines 40-48): push the current reward-per-token into
`rewards`, credit the balance, grow `total_staked`, stamp `last_update`. -/
def on_stake (s : StakingContract) (now account amount : ℕ) :
    Option StakingContract := do
  let rpt ← get_reward_per_token s now
  let balances' ← entryAdd s.balances account amount
  let total' ← cadd s.total_staked amount
  some { s with rewards := s.rewards ++ [rpt], balances := balances',
                total_staked := total', last_update := now }

/-- `OnUnstake::on_unstake` (lines 52-60): push the current reward-per-token,
debit the balance (panicking if the account is absent or short), shrink
`total_staked`, stamp `last_update`. -/
def on_unstake (s : StakingContract) (now account amount : ℕ) :
    Option StakingContract := do
  let rpt ← get_reward_per_token s now
  let balances' ← entrySub s.balances account amount
  let total' ← csub s.total_staked amount
  some { s with rewards := s.rewards ++ [rpt], balances := balances',
                total_staked := total', last_update := now }

/-- One transfer-from request issued to the gateway: move `amount` units of
`token` from `src` to `dst`. -/
structure TransferCall where
  src : ℕ
  dst : ℕ
  token : ℕ
  amount : ℕ
deriving DecidableEq, Repr

/-- Outcome of a public mutating operation: the post state, the boolean the
message returns, and the transfer-from requests it issued. -/
structure OpResult where
  state : StakingContract
  ret : Bool
  calls : List TransferCall
deriving DecidableEq, Repr

/-- The public message `stake` (lines 86-104).  `pool` is the contract's own
`AccountId` (`self.env().account_id()`), `account` the caller, `tr` the
outcome of the external transfer.  A failed transfer propagates out; the
reward computation divides by the unguarded `remaining_days` and by the
unguarded `total_staked` before crediting via `on_stake`. -/
def stake (s : StakingContract) (pool now account amount : ℕ)
    (tr : TransferFromResult) : Option OpResult :=
  match tr with
  | .err _ => none
  | .ok => do
    let diff ← csub s.staking_deadline now
    let remaining_days := diff / (24 * 60 * 60)
    let num ← cmul amount (s.rewards.getLast?.getD 0)
    let reward ← cdiv (num / 10000) remaining_days
    let p ← cmul reward 10000
    let q ← cdiv p s.total_staked
    let rpt' ← cadd s.reward_per_token q
    let s' ← on_stake { s with reward_per_token := rpt' } now account amount
    some { state := s', ret := true,
           calls := [⟨account, pool, s.staked_token, amount⟩] }

/-- The public message `unstake` (lines 107-129): returns `false` leaving the
state alone when the caller's balance is short; otherwise updates the reward
accumulator (unguarded divisions as in `stake`), debits via `on_unstake`, and
finally issues the external transfer, whose failure aborts the call. -/
def unstake (s : StakingContract) (pool now account amount : ℕ)
    (tr : TransferFromResult) : Option OpResult :=
  if (mapGet s.balances account).getD 0 < amount then
    some { state := s, ret := false, calls := [] }
  else do
    let diff ← csub s.staking_deadline now
    let remaining_days := diff / (24 * 60 * 60)
    let num ← cmul amount (s.rewards.getLast?.getD 0)
    let reward ← cdiv (num / 10000) remaining_days
    let p ← cmul reward 10000
    let q ← cdiv p s.total_staked
    let rpt' ← cadd s.reward_per_token q
    let s' ← on_unstake { s with reward_per_token := rpt' } now account amount
    match tr with
    | .err _ => none
    | .ok =>
      some { state := s', ret := true,
             calls := [⟨account, pool, s.staked_token, amount⟩] }

/-- The public message `claim_rewards` (lines 132-149): computes
`earned = balance * get_reward_per_token() / 10_000 - rewards.last()`,
returns `false` touching nothing when `earned == 0`, otherwise pushes
`earned` and issues `transfer_from(account, pool, reward_token, earned)` —
note the source passes the caller as the transfer source and the pool as the
destination. -/
def claim_rewards (s : StakingContract) (pool now account : ℕ)
    (tr : TransferFromResult) : Option OpResult := do
  let balance := (mapGet s.balances account).getD 0
  let rpt ← get_reward_per_token s now
  let prod ← cmul balance rpt
  let earned ← csub (prod / 10000) (s.rewards.getLast?.getD 0)
  if earned = 0 then
    some { state := s, ret := false, calls := [] }
  else
    match tr with
    | .err _ => none
    | .ok =>
      some { state := { s with rewards := s.rewards ++ [earned] }, ret := true,
             calls := [⟨account, pool, s.reward_token, earned⟩] }

/-- Observations the gateway makes of the external PSP22 token contract during
one `transfer_from` call, in the order the source queries them. -/
structure TransferEnv where
  user_current_balance : ℕ
  staking_contract_allowance : ℕ
  balance_before : ℕ
  call_succeeds : Bool
  balance_after : ℕ
deriving DecidableEq, Repr

/-- The gateway `transfer_from` (lines 189-239): balance check, allowance
check, external call, then the checked balance-delta computation whose result
`actual_token_staked` is computed but discarded — the function returns unit. -/
def transfer_from (env : TransferEnv) (amount : ℕ) : TransferFromResult :=
  if env.user_current_balance < amount then .err .InsufficientFunds
  else if env.staking_contract_allowance < amount then .err .NotEnoughAllowance
  else if env.call_succeeds = false then .err .TokenTransferFailed
  else
    match csub env.balance_after env.balance_before with
    | some _actual_token_staked => .ok
    | none => .err .Overflow

/-- The balance delta `actual_token_staked` the gateway computes at lines
222-236 (`balance_after.checked_sub(balance_before)`). -/
def actual_received (env : TransferEnv) : Option ℕ :=
  csub env.balance_after env.balance_before

/-- The constructor `new` (lines 71-83): empty pool, deadline one year past
creation time `t0`. -/
def initState (t0 reward_token staked_token : ℕ) : StakingContract :=
  { balances := [], staked_token := staked_token, reward_token := reward_token,
    total_staked := 0, staking_deadline := t0 + 365 * 24 * 60 * 60,
    rewards := [], reward_per_token := 0, last_update := 0 }

/-- One successful public operation of the pool, at an arbitrary time, by an
arbitrary caller, with an arbitrary external-transfer outcome.  Panicking
executions (`none`) revert and hence produce no step. -/
inductive Step : StakingContract → StakingContract → Prop where
  | ofStake (s : StakingContract) (pool now account amount : ℕ)
      (tr : TransferFromResult) (r : OpResult) :
      stake s pool now account amount tr = some r → Step s r.state
  | ofUnstake (s : StakingContract) (pool now account amount : ℕ)
      (tr : TransferFromResult) (r : OpResult) :
      unstake s pool now account amount tr = some r → Step s r.state
  | ofClaim (s : StakingContract) (pool now account : ℕ)
      (tr : TransferFromResult) (r : OpResult) :
      claim_rewards s pool now account tr = some r → Step s r.state

/-- States reachable from the freshly constructed pool by public operations. -/
def Reachable (t0 rt st : ℕ) (s : StakingContract) : Prop :=
  Relation.ReflTransGen Step (initState t0 rt st) s

/-- The branch structure of the decay contribution inside
`get_reward_per_token`: the halved last reward, divided by the remaining
days when they are nonzero. -/
def decayContribution (reward remaining_days : ℕ) : ℕ :=
  if remaining_days = 0 then reward / 2 else reward / 2 / remaining_days

/-- Gateway observations for a stake of 100 units of a token that deducts a
2% transfer fee: the pool's balance grows by 98, not 100. -/
def feeTokenEnv : TransferEnv :=
  { user_current_balance := 100, staking_contract_allowance := 100,
    balance_before := 0, call_succeeds := true, balance_after := 98 }

/-- A pool with one staker holding 50, about to receive a second stake. -/
def poolBeforeFeeStake : StakingContract :=
  { balances := [(1, 50)], staked_token := 23, reward_token := 17,
    total_staked := 50, staking_deadline := 31536000, rewards := [],
    reward_per_token := 0, last_update := 0 }

/-- A pool observed within the final day before its staking deadline. -/
def poolFinalDay : StakingContract :=
  { balances := [(1, 100)], staked_token := 23, reward_token := 17,
    total_staked := 100, staking_deadline := 100000, rewards := [5000],
    reward_per_token := 0, last_update := 0 }

/-- A pool whose sole staker holds the maximal `u128` balance. -/
def poolNearMax : StakingContract :=
  { balances := [(1, U128 - 1)], staked_token := 23, reward_token := 17,
    total_staked := U128 - 1, staking_deadline := 31536000, rewards := [],
    reward_per_token := 0, last_update := 0 }

/-- A non-empty pool whose staking deadline (100) lies in the past. -/
def poolPastDeadline : StakingContract :=
  { balances := [(1, 1)], staked_token := 23, reward_token := 17,
    total_staked := 1, staking_deadline := 100, rewards := [],
    reward_per_token := 0, last_update := 0 }

/-- A small pool ten days before its deadline with one reward snapshot. -/
def poolTenDaysLeft : StakingContract :=
  { balances := [(1, 2)], staked_token := 23, reward_token := 17,
    total_staked := 2, staking_deadline := 864000, rewards := [100],
    reward_per_token := 7, last_update := 0 }

/-- A pool in which account 7 has a nonzero accrued reward to claim. -/
def poolClaimScenario : StakingContract :=
  { balances := [(7, 100)], staked_token := 23, reward_token := 17,
    total_staked := 100, staking_deadline := 86400, rewards := [],
    reward_per_token := 500, last_update := 0 }

/-- A pool two days before its deadline with a large reward snapshot, so a
stake strictly increases the accumulator. -/
def poolOneStaker : StakingContract :=
  { balances := [(1, 10)], staked_token := 23, reward_token := 17,
    total_staked := 10, staking_deadline := 172800, rewards := [1000000],
    reward_per_token := 0, last_update := 0 }

/-- The outcome of `stake poolOneStaker 99 0 1 10 .ok`. -/
def poolOneStakerStakeResult : OpResult :=
  { state := { balances := [(1, 20)], staked_token := 23, reward_token := 17,
               total_staked := 20, staking_deadline := 172800,
               rewards := [1000000, 250500000], reward_per_token := 500000,
               last_update := 0 },
    ret := true, calls := [⟨1, 99, 23, 10⟩] }

/-- A pool in which account 3 can claim 2 units of reward. -/
def poolReadScenario : StakingContract :=
  { balances := [(3, 200)], staked_token := 23, reward_token := 17,
    total_staked := 200, staking_deadline := 86400, rewards := [],
    reward_per_token := 100, last_update := 0 }

/-- The outcome of `claim_rewards poolReadScenario 99 0 3 .ok`. -/
def poolReadScenarioClaimResult : OpResult :=
  { state := { balances := [(3, 200)], staked_token := 23, reward_token := 17,
               total_staked := 200, staking_deadline := 86400, rewards := [2],
               reward_per_token := 100, last_update := 0 },
    ret := true, calls := [⟨3, 99, 17, 2⟩] }

theorem cadd_eq_some {a b c : ℕ} (h : cadd a b = some c) : c = a + b := by
  unfold cadd at h; split at h <;> simp_all

theorem csub_eq_some {a b c : ℕ} (h : csub a b = some c) : b ≤ a ∧ c + b = a := by
  unfold csub at h; split at h <;> simp_all; omega

theorem cdiv_eq_some {a b c : ℕ} (h : cdiv a b = some c) : b ≠ 0 ∧ c = a / b := by
  unfold cdiv at h; split at h <;> simp_all

theorem entryAdd_sum : ∀ {m m' : List (ℕ × ℕ)} {k a : ℕ},
    entryAdd m k a = some m' → sumVals m' = sumVals m + a := by
  intro m
  induction m with
  | nil =>
    intro m' k a h
    simp only [entryAdd, Option.some.injEq] at h
    subst h; simp [sumVals]
  | cons hd tl ih =>
    intro m' k a h
    obtain ⟨k', v⟩ := hd
    simp only [entryAdd] at h
    split at h
    · cases hc : cadd v a <;> rw [hc] at h
      · exact absurd h (by simp)
      · obtain rfl : _ = m' := Option.some.inj h
        have := cadd_eq_some hc
        subst this
        simp [sumVals]; ring
    · cases hr : entryAdd tl k a <;> rw [hr] at h
      · exact absurd h (by simp)
      · obtain rfl : _ = m' := Option.some.inj h
        have := ih hr
        simp [sumVals] at this ⊢
        omega

theorem entrySub_sum : ∀ {m m' : List (ℕ × ℕ)} {k a : ℕ},
    entrySub m k a = some m' → sumVals m' + a = sumVals m := by
  intro m
  induction m with
  | nil => intro m' k a h; simp [entrySub] at h
  | cons hd tl ih =>
    intro m' k a h
    obtain ⟨k', v⟩ := hd
    simp only [entrySub] at h
    split at h
    · cases hc : csub v a <;> rw [hc] at h
      · exact absurd h (by simp)
      · obtain rfl : _ = m' := Option.some.inj h
        have := csub_eq_some hc
        simp [sumVals]; omega
    · cases hr : entrySub tl k a <;> rw [hr] at h
      · exact absurd h (by simp)
      · obtain rfl : _ = m' := Option.some.inj h
        have := ih hr
        simp [sumVals] at this ⊢
        omega

theorem on_stake_spec {s s' : StakingContract} {now account amount : ℕ}
    (h : on_stake s now account amount = some s') :
    sumVals s'.balances = sumVals s.balances + amount ∧
    s'.total_staked = s.total_staked + amount ∧
    s'.reward_per_token = s.reward_per_token := by
  unfold on_stake at h
  simp only [Bind.bind] at h
  rw [Option.bind_eq_some] at h
  obtain ⟨rpt, hrpt, h⟩ := h
  rw [Option.bind_eq_some] at h
  obtain ⟨b', hb, h⟩ := h
  rw [Option.bind_eq_some] at h
  obtain ⟨t', ht, h⟩ := h
  obtain rfl : _ = s' := Option.some.inj h
  exact ⟨entryAdd_sum hb, cadd_eq_some ht, rfl⟩

theorem on_unstake_spec {s s' : StakingContract} {now account amount : ℕ}
    (h : on_unstake s now account amount = some s') :
    sumVals s'.balances + amount = sumVals s.balances ∧
    s'.total_staked + amount = s.total_staked ∧
    s'.reward_per_token = s.reward_per_token := by
  unfold on_unstake at h
  simp only [Bind.bind] at h
  rw [Option.bind_eq_some] at h
  obtain ⟨rpt, hrpt, h⟩ := h
  rw [Option.bind_eq_some] at h
  obtain ⟨b', hb, h⟩ := h
  rw [Option.bind_eq_some] at h
  obtain ⟨t', ht, h⟩ := h
  obtain rfl : _ = s' := Option.some.inj h
  exact ⟨entrySub_sum hb, (csub_eq_some ht).2, rfl⟩

theorem stake_spec {s : StakingContract} {pool now account amount : ℕ}
    {tr : TransferFromResult} {r : OpResult}
    (h : stake s pool now account amount tr = some r) :
    sumVals r.state.balances = sumVals s.balances + amount ∧
    r.state.total_staked = s.total_staked + amount ∧
    s.reward_per_token ≤ r.state.reward_per_token := by
  cases tr with
  | err e => simp [stake] at h
  | ok =>
    simp only [stake, Bind.bind] at h
    rw [Option.bind_eq_some] at h
    obtain ⟨diff, hdiff, h⟩ := h
    rw [Option.bind_eq_some] at h
    obtain ⟨num, hnum, h⟩ := h
    rw [Option.bind_eq_some] at h
    obtain ⟨reward, hreward, h⟩ := h
    rw [Option.bind_eq_some] at h
    obtain ⟨p, hp, h⟩ := h
    rw [Option.bind_eq_some] at h
    obtain ⟨q, hq, h⟩ := h
    rw [Option.bind_eq_some] at h
    obtain ⟨rpt', hrpt, h⟩ := h
    rw [Option.bind_eq_some] at h
    obtain ⟨s', hs', h⟩ := h
    obtain rfl : _ = r := Option.some.inj h
    have hspec := on_stake_spec hs'
    have hle : s.reward_per_token ≤ rpt' := by
      have := cadd_eq_some hrpt; omega
    simp only at hspec
    refine ⟨?_, ?_, ?_⟩ <;> simp_all

theorem unstake_spec {s : StakingContract} {pool now account amount : ℕ}
    {tr : TransferFromResult} {r : OpResult}
    (h : unstake s pool now account amount tr = some r) :
    r.state = s ∨
    (sumVals r.state.balances + amount = sumVals s.balances ∧
     r.state.total_staked + amount = s.total_staked ∧
     s.reward_per_token ≤ r.state.reward_per_token) := by
  simp only [unstake] at h
  split at h
  · left
    obtain rfl : _ = r := Option.some.inj h
    rfl
  · right
    simp only [Bind.bind] at h
    rw [Option.bind_eq_some] at h
    obtain ⟨diff, hdiff, h⟩ := h
    rw [Option.bind_eq_some] at h
    obtain ⟨num, hnum, h⟩ := h
    rw [Option.bind_eq_some] at h
    obtain ⟨reward, hreward, h⟩ := h
    rw [Option.bind_eq_some] at h
    obtain ⟨p, hp, h⟩ := h
    rw [Option.bind_eq_some] at h
    obtain ⟨q, hq, h⟩ := h
    rw [Option.bind_eq_some] at h
    obtain ⟨rpt', hrpt, h⟩ := h
    rw [Option.bind_eq_some] at h
    obtain ⟨s', hs', h⟩ := h
    cases tr with
    | err e => simp at h
    | ok =>
      obtain rfl : _ = r := Option.some.inj h
      have hspec := on_unstake_spec hs'
      have hle : s.reward_per_token ≤ rpt' := by
        have := cadd_eq_some hrpt; omega
      simp only at hspec
      refine ⟨?_, ?_, ?_⟩ <;> simp_all

theorem claim_rewards_frame {s : StakingContract} {pool now account : ℕ}
    {tr : TransferFromResult} {r : OpResult}
    (h : claim_rewards s pool now account tr = some r) :
    r.state.balances = s.balances ∧ r.state.total_staked = s.total_staked ∧
    r.state.reward_per_token = s.reward_per_token := by
  simp only [claim_rewards, Bind.bind] at h
  rw [Option.bind_eq_some] at h
  obtain ⟨rpt, hrpt, h⟩ := h
  rw [Option.bind_eq_some] at h
  obtain ⟨prod, hprod, h⟩ := h
  rw [Option.bind_eq_some] at h
  obtain ⟨earned, hearned, h⟩ := h
  split at h
  · obtain rfl : _ = r := Option.some.inj h
    exact ⟨rfl, rfl, rfl⟩
  · cases tr with
    | err e => simp at h
    | ok =>
      obtain rfl : _ = r := Option.some.inj h
      exact ⟨rfl, rfl, rfl⟩

theorem step_preserves_sum {s s' : StakingContract} (st : Step s s')
    (hs : s.total_staked = sumVals s.balances) :
    s'.total_staked = sumVals s'.balances := by
  cases st with
  | ofStake pool now account amount tr r h =>
    have := stake_spec h; omega
  | ofUnstake pool now account amount tr r h =>
    rcases unstake_spec h with heq | ⟨h1, h2, h3⟩
    · rw [heq]; exact hs
    · omega
  | ofClaim pool now account tr r h =>
    obtain ⟨h1, h2, h3⟩ := claim_rewards_frame h
    rw [h1, h2]; exact hs

theorem step_rpt_mono {s s' : StakingContract} (st : Step s s') :
    s.reward_per_token ≤ s'.reward_per_token := by
  cases st with
  | ofStake pool now account amount tr r h => exact (stake_spec h).2.2
  | ofUnstake pool now account amount tr r h =>
    rcases unstake_spec h with heq | ⟨h1, h2, h3⟩
    · rw [heq]
    · exact h3
  | ofClaim pool now account tr r h => exact (claim_rewards_frame h).2.2.ge

/-- C1: in every state reachable from the initial pool state by any sequence
of the public operations `stake`, `unstake` and `claim_rewards`, the field
`total_staked` equals the sum of all values stored in the `balances` map. -/
theorem total_staked_eq_sum_of_reachable (t0 rt st : ℕ) (s : StakingContract)
    (h : Reachable t0 rt st s) : s.total_staked = sumVals s.balances := by
  unfold Reachable at h
  induction h with
  | refl => simp [initState, sumVals]
  | tail _ step ih => exact step_preserves_sum step ih

/-- Witness for C1: the invariant holds at a state reached from the fresh
pool by one public operation (an `unstake` rejected for insufficient
balance). -/
theorem total_staked_eq_sum_of_reachable_witness :
    (initState 0 17 23).total_staked = sumVals (initState 0 17 23).balances :=
  total_staked_eq_sum_of_reachable 0 17 23 _ (Relation.ReflTransGen.single
    (Step.ofUnstake (initState 0 17 23) 99 0 1 5 .ok
      ⟨initState 0 17 23, false, []⟩ (by decide)))

/-- C2 (failing run): the very first `stake` into the freshly constructed
empty pool reaches `reward * 10_000 / total_staked` with `total_staked == 0`
and panics with a division by zero instead of skipping the accumulator
update; the stake does not succeed. -/
theorem first_stake_into_empty_pool_divides_by_zero :
    (initState 0 17 23).total_staked = 0 ∧
    stake (initState 0 17 23) 99 0 1 1000 .ok = none := by decide

/-- C3 (failing run): on a 2%-fee token the gateway observes the pool balance
grow by only 98 of the 100 requested units, yet `transfer_from` returns bare
`Ok(())` — the computed `actual_token_staked` is discarded — and `stake`
credits the requested 100 to the caller's balance and to `total_staked`. -/
theorem stake_credits_requested_amount_not_actual_received :
    transfer_from feeTokenEnv 100 = .ok ∧
    actual_received feeTokenEnv = some 98 ∧
    (stake poolBeforeFeeStake 99 0 2 100 .ok).map
      (fun r => mapGet r.state.balances 2) = some (some 100) ∧
    (stake poolBeforeFeeStake 99 0 2 100 .ok).map
      (fun r => r.state.total_staked) = some 150 := by decide

/-- C4 (failing run): within the final day before the deadline the unguarded
integer division `(staking_deadline - now) / 86400` yields zero and `stake`
divides by it, panicking, instead of saturating `remaining_days` at zero
without a division by zero. -/
theorem stake_in_final_day_divides_by_zero :
    99950 ≤ poolFinalDay.staking_deadline ∧
    (poolFinalDay.staking_deadline - 99950) / (24 * 60 * 60) = 0 ∧
    stake poolFinalDay 99 99950 2 10 .ok = none := by decide

/-- C5 (failing run): staking 1 more unit for an account already holding
`u128::MAX` makes the unchecked `*balance += amount` in `on_stake` overflow:
the message panics (modelled as `none`), producing no `Overflow` error value
— the `bool`-returning operation has no error channel at all. -/
theorem stake_overflow_panics_without_error_value :
    mapGet poolNearMax.balances 1 = some (U128 - 1) ∧
    stake poolNearMax 99 0 1 1 .ok = none := by decide

/-- C6 (counterexample): on a non-empty pool observed past its deadline,
`get_reward_per_token` panics on the `u64` underflow of
`staking_deadline - now` instead of returning any value. -/
theorem get_reward_per_token_past_deadline_panics :
    poolPastDeadline.total_staked ≠ 0 ∧
    poolPastDeadline.staking_deadline < 200 ∧
    get_reward_per_token poolPastDeadline 200 = none := by decide

/-- C6 (amended): `get_reward_per_token` returns the stored accumulator
unchanged when `total_staked == 0`; otherwise — provided `now` is not past
`staking_deadline` (else the subtraction underflows and the call panics) and
the checked fixed-point arithmetic stays below `2^128` — it returns
`reward_per_token + contribution * 10_000 / total_staked`, where the
contribution is the halved last reward snapshot, divided by `remaining_days`
when that is nonzero. -/
theorem get_reward_per_token_formula (s : StakingContract) (now : ℕ) :
    (s.total_staked = 0 → get_reward_per_token s now = some s.reward_per_token) ∧
    (s.total_staked ≠ 0 → now ≤ s.staking_deadline →
      decayContribution (s.rewards.getLast?.getD 0)
        ((s.staking_deadline - now) / (24 * 60 * 60)) * 10000 < U128 →
      s.reward_per_token + decayContribution (s.rewards.getLast?.getD 0)
        ((s.staking_deadline - now) / (24 * 60 * 60)) * 10000 / s.total_staked < U128 →
      get_reward_per_token s now =
        some (s.reward_per_token + decayContribution (s.rewards.getLast?.getD 0)
          ((s.staking_deadline - now) / (24 * 60 * 60)) * 10000 / s.total_staked)) := by
  constructor
  · intro h0
    simp [get_reward_per_token, h0]
  · intro hne hle hmul hadd
    have hcsub : csub s.staking_deadline now = some (s.staking_deadline - now) := by
      unfold csub
      rw [if_pos hle]
    unfold get_reward_per_token
    rw [if_neg hne, hcsub]
    by_cases hrd : (s.staking_deadline - now) / (24 * 60 * 60) = 0
    · rw [decayContribution, if_pos hrd] at hmul hadd
      have hcmul : cmul (s.rewards.getLast?.getD 0 / 2) 10000 =
          some (s.rewards.getLast?.getD 0 / 2 * 10000) := by
        unfold cmul; rw [if_pos hmul]
      have hcdiv : cdiv (s.rewards.getLast?.getD 0 / 2 * 10000) s.total_staked =
          some (s.rewards.getLast?.getD 0 / 2 * 10000 / s.total_staked) := by
        unfold cdiv; rw [if_neg hne]
      have hcadd : cadd s.reward_per_token
          (s.rewards.getLast?.getD 0 / 2 * 10000 / s.total_staked) =
          some (s.reward_per_token +
            s.rewards.getLast?.getD 0 / 2 * 10000 / s.total_staked) := by
        unfold cadd; rw [if_pos hadd]
      simp [hrd, hcmul, hcdiv, hcadd, decayContribution]
    · rw [decayContribution, if_neg hrd] at hmul hadd
      have hcmul : cmul (s.rewards.getLast?.getD 0 / 2 /
          ((s.staking_deadline - now) / (24 * 60 * 60))) 10000 =
          some (s.rewards.getLast?.getD 0 / 2 /
            ((s.staking_deadline - now) / (24 * 60 * 60)) * 10000) := by
        unfold cmul; rw [if_pos hmul]
      have hcdiv : cdiv (s.rewards.getLast?.getD 0 / 2 /
          ((s.staking_deadline - now) / (24 * 60 * 60)) * 10000) s.total_staked =
          some (s.rewards.getLast?.getD 0 / 2 /
            ((s.staking_deadline - now) / (24 * 60 * 60)) * 10000 / s.total_staked) := by
        unfold cdiv; rw [if_neg hne]
      have hcadd : cadd s.reward_per_token
          (s.rewards.getLast?.getD 0 / 2 /
            ((s.staking_deadline - now) / (24 * 60 * 60)) * 10000 / s.total_staked) =
          some (s.reward_per_token + s.rewards.getLast?.getD 0 / 2 /
            ((s.staking_deadline - now) / (24 * 60 * 60)) * 10000 / s.total_staked) := by
        unfold cadd; rw [if_pos hadd]
      simp [hrd, hcmul, hcdiv, hcadd, decayContribution]

/-- Witness for C6: ten days before the deadline, with last snapshot 100 and
two units staked, the read returns `7 + (100/2/10) * 10_000 / 2 = 25_007`. -/
theorem get_reward_per_token_formula_witness :
    get_reward_per_token poolTenDaysLeft 0 =
      some (poolTenDaysLeft.reward_per_token +
        decayContribution (poolTenDaysLeft.rewards.getLast?.getD 0)
          ((poolTenDaysLeft.staking_deadline - 0) / (24 * 60 * 60)) * 10000 /
          poolTenDaysLeft.total_staked) :=
  (get_reward_per_token_formula poolTenDaysLeft 0).2 (by decide) (by decide)
    (by decide) (by decide)

/-- C7 (failing run): with a nonzero `earned` (= 5), `claim_rewards` appends
5 to the history and reports success, but the transfer request it issues
moves the reward token from the caller (account 7) to the pool (account 99)
— the opposite of the specified pool-to-caller payout. -/
theorem claim_rewards_requests_transfer_from_caller_to_pool :
    claim_rewards poolClaimScenario 99 0 7 .ok =
      some ⟨{ poolClaimScenario with rewards := [5] }, true, [⟨7, 99, 17, 5⟩]⟩ ∧
    (claim_rewards poolClaimScenario 99 0 7 .ok).map
      (fun r => r.calls.map fun c => (c.src, c.dst)) = some [(7, 99)] := by decide

/-- C8: the gateway checks in order: sender balance below `amount` fails with
`InsufficientFunds`; then allowance below `amount` fails with
`NotEnoughAllowance`; then a failing external call fails with
`TokenTransferFailed`; then the post-minus-pre receiver-balance subtraction
fails with `Overflow` exactly when it underflows, and otherwise the call
succeeds. -/
theorem transfer_from_check_order (env : TransferEnv) (amount : ℕ) :
    (transfer_from env amount = .err .InsufficientFunds ↔
      env.user_current_balance < amount) ∧
    (transfer_from env amount = .err .NotEnoughAllowance ↔
      amount ≤ env.user_current_balance ∧ env.staking_contract_allowance < amount) ∧
    (transfer_from env amount = .err .TokenTransferFailed ↔
      amount ≤ env.user_current_balance ∧ amount ≤ env.staking_contract_allowance ∧
      env.call_succeeds = false) ∧
    (transfer_from env amount = .err .Overflow ↔
      amount ≤ env.user_current_balance ∧ amount ≤ env.staking_contract_allowance ∧
      env.call_succeeds = true ∧ env.balance_after < env.balance_before) ∧
    (transfer_from env amount = .ok ↔
      amount ≤ env.user_current_balance ∧ amount ≤ env.staking_contract_allowance ∧
      env.call_succeeds = true ∧ env.balance_before ≤ env.balance_after) := by
  obtain ⟨ub, al, bb, cs, ba⟩ := env
  simp only [transfer_from, csub]
  cases cs <;> split_ifs <;> simp_all

/-- Witness for C8: a sender balance of 50 against a requested 100 yields
`InsufficientFunds`. -/
theorem transfer_from_check_order_witness :
    transfer_from ⟨50, 100, 0, true, 0⟩ 100 = .err .InsufficientFunds :=
  ((transfer_from_check_order ⟨50, 100, 0, true, 0⟩ 100).1).mpr (by decide)

/-- C9: across any sequence of successful public operations, the stored
`reward_per_token` field never decreases. -/
theorem reward_per_token_monotone (s s' : StakingContract)
    (h : Relation.ReflTransGen Step s s') :
    s.reward_per_token ≤ s'.reward_per_token := by
  induction h with
  | refl => exact le_refl _
  | tail _ step ih => exact le_trans ih (step_rpt_mono step)

/-- Witness for C9: a concrete `stake` step raising the accumulator from 0
to 500_000. -/
theorem reward_per_token_monotone_witness :
    poolOneStaker.reward_per_token ≤
      poolOneStakerStakeResult.state.reward_per_token :=
  reward_per_token_monotone poolOneStaker poolOneStakerStakeResult.state
    (Relation.ReflTransGen.single
      (Step.ofStake poolOneStaker 99 0 1 10 .ok poolOneStakerStakeResult
        (by decide)))

/-- C10: the reads return fields of the state without modifying it — in the
embedding `get_reward_per_token`, `get_total_staked` and
`get_staking_deadline` are functions of the state producing no successor
state, so repeated reads at one time trivially agree — and the stored
`reward_per_token` is advanced only by `stake`/`unstake`: a successful
`claim_rewards` leaves it unchanged. -/
theorem read_operations_pure (s : StakingContract) (pool now account : ℕ)
    (tr : TransferFromResult) (r : OpResult) :
    get_total_staked s = s.total_staked ∧
    get_staking_deadline s = s.staking_deadline ∧
    (claim_rewards s pool now account tr = some r →
      r.state.reward_per_token = s.reward_per_token) :=
  ⟨rfl, rfl, fun h => (claim_rewards_frame h).2.2⟩

/-- Witness for C10: a successful claim of 2 reward units leaves the stored
accumulator at 100. -/
theorem read_operations_pure_witness :
    poolReadScenarioClaimResult.state.reward_per_token =
      poolReadScenario.reward_per_token :=
  (read_operations_pure poolReadScenario 99 0 3 .ok
    poolReadScenarioClaimResult).2.2 (by decide)
